import Mathlib

/-!
Verification of the bounded-concurrency task scheduler (`Scheduler`) of the
plasticity repository.

The repository ships the Jest test suite of the scheduler
(`__tests__/util/Scheduler.test.ts`, present in the corpus), while the
implementation file `src/util/Scheduler.ts` itself is not part of the corpus.
The model below therefore follows the specification's algorithm (§4.1:
admit while `runningCount < concurrencyLimit`, otherwise queue, with a FIFO
backfill continuation on settlement), with the one point the specification
leaves open — the overflow policy when the queue already holds `queueDepth`
tasks — pinned by the shipped test: with `concurrency = 2, depth = 1` and
four submissions, the test asserts that only three tasks are ever invoked
(`resolves.length` stays at `concurrency + 1` through all settlements), which
forces the scheduler to silently discard a submission that arrives while the
queue is full.

Tasks are identified by submission order (the spec: "Identity: implicit, by
submission order"). Invoking a task in the test pushes a resolver, so the
list of invoked task ids models the test's `resolves` array; `settle`
models the task's promise resolving/rejecting, which runs the completion
continuation.
-/

namespace Plasticity

/-- Modelled from the spec: the settlement of a task's asynchronous result
(`AsyncResult<T>`: value or failure). `src/util/Scheduler.ts` is not in the
corpus; types are specialised to `T = string` as in the shipped test. -/
inductive Outcome where
  | ok (value : String)
  | failure (error : String)
deriving DecidableEq, Repr

/-- Modelled from the spec: the internal state of a `Scheduler` (§3), plus
ghost logs (`invoked`, `dropped`, `settledHandles`) that record the
observable history: which tasks were ever invoked (the test's `resolves`
array), which submissions were discarded by admission control, and the
settlement of each Handle. -/
structure SchedulerState where
  concurrencyLimit : Nat
  queueDepth : Nat
  runningCount : Nat
  /-- ids of queued tasks, FIFO (head is next to be admitted) -/
  queue : List Nat
  /-- ids of tasks currently running -/
  running : List Nat
  /-- ids of tasks ever invoked, in invocation order -/
  invoked : List Nat
  /-- ids of submissions discarded by admission control -/
  dropped : List Nat
  /-- id that the next submission will receive -/
  nextId : Nat
  /-- settled Handles: (task id, outcome), most recent first -/
  settledHandles : List (Nat × Outcome)
deriving DecidableEq, Repr

/-- Modelled from the spec: a freshly constructed scheduler with the given
`concurrencyLimit` and `queueDepth`. -/
def Scheduler.init (K D : Nat) : SchedulerState :=
  ⟨K, D, 0, [], [], [], [], 0, []⟩

/-- Modelled from the spec: `Scheduler.schedule` / `submit(task)` (§4.1).
If `runningCount < concurrencyLimit` the task is admitted immediately
(invoked during the call itself); otherwise it is appended to the queue;
if the queue already holds `queueDepth` tasks the submission is silently
discarded (the overflow policy forced by the shipped test). The Handle
(the task's id) is returned synchronously in every case. -/
def schedule (s : SchedulerState) : SchedulerState × Nat :=
  if s.runningCount < s.concurrencyLimit then
    ({ s with runningCount := s.runningCount + 1,
              running := s.running ++ [s.nextId],
              invoked := s.invoked ++ [s.nextId],
              nextId := s.nextId + 1 }, s.nextId)
  else if s.queue.length < s.queueDepth then
    ({ s with queue := s.queue ++ [s.nextId], nextId := s.nextId + 1 }, s.nextId)
  else
    ({ s with dropped := s.dropped ++ [s.nextId], nextId := s.nextId + 1 }, s.nextId)

/-- Modelled from the spec: the completion continuation (§4.1), run when a
running task's asynchronous result settles with outcome `o`: decrement
`runningCount`, settle the task's Handle, and if the queue is non-empty pop
its head, increment `runningCount` and invoke it. A settlement for a task
that is not running is a no-op (no such continuation exists). -/
def settleTask (s : SchedulerState) (i : Nat) (o : Outcome) : SchedulerState :=
  if i ∈ s.running then
    match s.queue with
    | [] =>
        { s with running := s.running.erase i,
                 runningCount := s.runningCount - 1,
                 settledHandles := (i, o) :: s.settledHandles }
    | hd :: tl =>
        { s with running := s.running.erase i ++ [hd],
                 runningCount := s.runningCount - 1 + 1,
                 settledHandles := (i, o) :: s.settledHandles,
                 queue := tl,
                 invoked := s.invoked ++ [hd] }
  else s

/-- Modelled from the spec: `Handle<T>.await()` — the outcome the caller
observes once the Handle has settled (`none` while still pending). -/
def await (s : SchedulerState) (h : Nat) : Option Outcome :=
  s.settledHandles.lookup h

/-- An observable event in a scheduler's lifetime: a submission, or the
settlement of task `i`'s asynchronous result with outcome `o`. -/
inductive Event where
  | submit
  | settle (i : Nat) (o : Outcome)
deriving DecidableEq, Repr

/-- One step of the scheduler's lifetime. -/
def step (s : SchedulerState) : Event → SchedulerState
  | .submit => (schedule s).1
  | .settle i o => settleTask s i o

/-- The scheduler state reached from a fresh `Scheduler K D` after the given
sequence of events. -/
def run (K D : Nat) (es : List Event) : SchedulerState :=
  es.foldl step (Scheduler.init K D)

/-- Modelled from the spec: constructing a `Scheduler` with
`concurrencyLimit < 1` is invalid and fails fast at construction (§7). -/
inductive ConfigurationError where
  | invalidConcurrencyLimit
deriving DecidableEq, Repr

/-- Modelled from the spec: the validating constructor (§7's
`ConfigurationError`): `concurrencyLimit ≥ 1` is required; `queueDepth ≥ 0`
always holds for naturals. -/
def Scheduler.make (K D : Nat) : Except ConfigurationError SchedulerState :=
  if K < 1 then Except.error ConfigurationError.invalidConcurrencyLimit
  else Except.ok (Scheduler.init K D)

/-- The scheduler's state invariant, maintained by every event: the running
count matches the running set and respects the limit; the queue is non-empty
only when all slots are busy; tasks are invoked in strictly increasing
submission order and queued tasks are all later than every invoked task;
running tasks are distinct and were invoked; all recorded ids were actually
submitted; and every submission is accounted for exactly once (invoked,
still queued, or dropped). -/
def Inv (s : SchedulerState) : Prop :=
  s.runningCount = s.running.length ∧
  s.runningCount ≤ s.concurrencyLimit ∧
  (s.queue ≠ [] → s.runningCount = s.concurrencyLimit) ∧
  List.Pairwise (· < ·) (s.invoked ++ s.queue) ∧
  s.running.Nodup ∧
  (∀ i ∈ s.running, i ∈ s.invoked) ∧
  (∀ i ∈ s.invoked, i < s.nextId) ∧
  (∀ i ∈ s.queue, i < s.nextId) ∧
  s.invoked.length + s.queue.length + s.dropped.length = s.nextId

instance (s : SchedulerState) : Decidable (Inv s) := by
  unfold Inv; exact inferInstance

theorem inv_init (K D : Nat) : Inv (Scheduler.init K D) := by
  refine ⟨rfl, Nat.zero_le _, ?_, ?_, ?_, ?_, ?_, ?_, rfl⟩ <;> simp [Scheduler.init]

theorem inv_schedule (s : SchedulerState) (hs : Inv s) : Inv (schedule s).1 := by
  obtain ⟨h1, h2, h3, h4, h5, h6, h7, h8, h9⟩ := hs
  unfold schedule
  split
  · -- admitted immediately: a slot is free, hence (by h3) the queue is empty
    rename_i hlt
    have hq : s.queue = [] := by
      by_contra hne
      exact absurd (h3 hne) (Nat.ne_of_lt hlt)
    have hnotmem : s.nextId ∉ s.invoked := fun hmem => lt_irrefl _ (h7 _ hmem)
    refine ⟨?_, hlt, ?_, ?_, ?_, ?_, ?_, ?_, ?_⟩
    · simp [h1]
    · intro hne; exact absurd hq hne
    · rw [hq] at h4 ⊢
      simp only [List.append_nil] at h4 ⊢
      rw [List.pairwise_append]
      exact ⟨h4, List.pairwise_singleton _ _, fun a ha b hb => by
        simp only [List.mem_singleton] at hb; exact hb ▸ h7 a ha⟩
    · simp only [List.nodup_append, List.nodup_cons, List.nodup_nil]
      exact ⟨h5, by simp, by
        intro a ha hb
        simp only [List.mem_singleton] at hb
        exact hnotmem (hb ▸ h6 a ha)⟩
    · intro i hi
      rcases List.mem_append.mp hi with hi | hi
      · exact List.mem_append_left _ (h6 i hi)
      · exact List.mem_append_right _ hi
    · intro i hi
      rcases List.mem_append.mp hi with hi | hi
      · exact Nat.lt_succ_of_lt (h7 i hi)
      · simp only [List.mem_singleton] at hi
        dsimp only
        omega
    · intro i hi; exact Nat.lt_succ_of_lt (h8 i hi)
    · dsimp only
      simp only [List.length_append, List.length_singleton]
      omega
  · split
    · -- queued: all slots busy, queue has spare capacity
      rename_i hge _
      refine ⟨h1, h2, fun _ => Nat.le_antisymm h2 (Nat.le_of_not_lt hge), ?_, h5, h6, ?_, ?_, ?_⟩
      · rw [← List.append_assoc, List.pairwise_append]
        refine ⟨h4, List.pairwise_singleton _ _, fun a ha b hb => ?_⟩
        simp only [List.mem_singleton] at hb
        rcases List.mem_append.mp ha with ha | ha
        · exact hb ▸ h7 a ha
        · exact hb ▸ h8 a ha
      · intro i hi; exact Nat.lt_succ_of_lt (h7 i hi)
      · intro i hi
        rcases List.mem_append.mp hi with hi | hi
        · exact Nat.lt_succ_of_lt (h8 i hi)
        · simp only [List.mem_singleton] at hi
          dsimp only
          omega
      · dsimp only
        simp only [List.length_append, List.length_singleton]
        omega
    · -- discarded: queue already holds queueDepth tasks
      rename_i hge _
      refine ⟨h1, h2, fun hne => Nat.le_antisymm h2 (Nat.le_of_not_lt hge), h4, h5, h6, ?_, ?_, ?_⟩
      · intro i hi; exact Nat.lt_succ_of_lt (h7 i hi)
      · intro i hi; exact Nat.lt_succ_of_lt (h8 i hi)
      · dsimp only
        simp only [List.length_append, List.length_singleton]
        omega

theorem inv_settleTask (s : SchedulerState) (hs : Inv s) (i : Nat) (o : Outcome) :
    Inv (settleTask s i o) := by
  obtain ⟨h1, h2, h3, h4, h5, h6, h7, h8, h9⟩ := hs
  unfold settleTask
  split
  · rename_i hi
    have hpos : 1 ≤ s.running.length := List.length_pos.mpr (List.ne_nil_of_mem hi)
    have herase : (s.running.erase i).length = s.running.length - 1 :=
      List.length_erase_of_mem hi
    split
    · -- queue empty: the freed slot stays free
      rename_i hq
      refine ⟨?_, le_trans (Nat.sub_le _ _) h2, ?_, h4, h5.erase i, ?_, h7, h8, ?_⟩
      · simp [h1, herase]
      · intro hne; exact absurd hq hne
      · intro a ha; exact h6 a (List.mem_of_mem_erase ha)
      · rw [hq] at h9 ⊢; simpa using h9
    · -- queue non-empty: backfill from the head
      rename_i hd tl hq
      have hdq : hd ∈ s.queue := by rw [hq]; exact List.mem_cons_self _ _
      have hK : s.runningCount = s.concurrencyLimit := h3 (by rw [hq]; simp)
      have hinvlt : ∀ a ∈ s.invoked, a < hd := fun a ha =>
        (List.pairwise_append.mp h4).2.2 a ha hd hdq
      have hdnotinv : hd ∉ s.invoked := fun hmem => lt_irrefl _ (hinvlt hd hmem)
      have hperm : s.invoked ++ s.queue = (s.invoked ++ [hd]) ++ tl := by
        rw [hq, List.append_assoc]; rfl
      refine ⟨?_, ?_, ?_, ?_, ?_, ?_, ?_, ?_, ?_⟩
      · dsimp only
        simp only [List.length_append, List.length_singleton, herase]
        omega
      · dsimp only; rw [h1] at h2; omega
      · intro _; dsimp only; omega
      · rw [← hperm]; exact h4
      · simp only [List.nodup_append, List.nodup_cons, List.nodup_nil]
        refine ⟨h5.erase i, by simp, ?_⟩
        intro a ha hb
        simp only [List.mem_singleton] at hb
        exact hdnotinv (hb ▸ h6 a (List.mem_of_mem_erase ha))
      · intro a ha
        rcases List.mem_append.mp ha with ha | ha
        · exact List.mem_append_left _ (h6 a (List.mem_of_mem_erase ha))
        · exact List.mem_append_right _ ha
      · intro a ha
        rcases List.mem_append.mp ha with ha | ha
        · exact h7 a ha
        · simp only [List.mem_singleton] at ha; exact ha ▸ h8 hd hdq
      · intro a ha; exact h8 a (by rw [hq]; exact List.mem_cons_of_mem _ ha)
      · dsimp only
        rw [hq] at h9
        simp only [List.length_append, List.length_singleton, List.length_cons,
          List.length_nil] at h9 ⊢
        omega
  · exact ⟨h1, h2, h3, h4, h5, h6, h7, h8, h9⟩

theorem inv_step (s : SchedulerState) (e : Event) (hs : Inv s) : Inv (step s e) := by
  cases e with
  | submit => exact inv_schedule s hs
  | settle i o => exact inv_settleTask s hs i o

theorem inv_foldl (s : SchedulerState) (es : List Event) (hs : Inv s) :
    Inv (es.foldl step s) := by
  induction es generalizing s with
  | nil => exact hs
  | cons e es ih => exact ih _ (inv_step s e hs)

theorem inv_run (K D : Nat) (es : List Event) : Inv (run K D es) :=
  inv_foldl _ es (inv_init K D)

/-- The state after a burst of `N` submissions to a fresh `Scheduler K D`,
with no task settling in between (the spec's "tasks that never settle on
their own"). -/
def burst (K D N : Nat) : SchedulerState :=
  run K D (List.replicate N Event.submit)

theorem burst_succ (K D N : Nat) :
    burst K D (N + 1) = (schedule (burst K D N)).1 := by
  unfold burst run
  rw [List.replicate_succ', List.foldl_append]
  rfl

theorem burst_char (K D N : Nat) :
    (burst K D N).concurrencyLimit = K ∧
    (burst K D N).queueDepth = D ∧
    (burst K D N).runningCount = min N K ∧
    (burst K D N).invoked = List.range (min N K) ∧
    (burst K D N).queue.length = min (N - K) D ∧
    (∀ i ∈ (burst K D N).queue, i < K + D) ∧
    (burst K D N).nextId = N := by
  induction N with
  | zero =>
    refine ⟨rfl, rfl, ?_, ?_, ?_, ?_, rfl⟩ <;> simp [burst, run, Scheduler.init]
  | succ N ih =>
    obtain ⟨hK, hD, hc, hi, hq, hqm, hn⟩ := ih
    rw [burst_succ]
    unfold schedule
    rcases Nat.lt_or_ge N K with hNK | hNK
    · have hcond : (burst K D N).runningCount < (burst K D N).concurrencyLimit := by
        rw [hc, hK]; omega
      rw [if_pos hcond]
      dsimp only
      have hmin : min N K = N := by omega
      have hmin' : min (N + 1) K = N + 1 := by omega
      refine ⟨hK, hD, ?_, ?_, ?_, hqm, ?_⟩
      · rw [hc]; omega
      · rw [hi, hn, hmin, hmin', List.range_succ]
      · rw [hq]; omega
      · rw [hn]
    · have hcond : ¬ (burst K D N).runningCount < (burst K D N).concurrencyLimit := by
        rw [hc, hK]; omega
      rw [if_neg hcond]
      have hminK : min N K = K := by omega
      have hminK' : min (N + 1) K = K := by omega
      rcases Nat.lt_or_ge (N - K) D with hND | hND
      · have hcond2 : (burst K D N).queue.length < (burst K D N).queueDepth := by
          rw [hq, hD]; omega
        rw [if_pos hcond2]
        dsimp only
        refine ⟨hK, hD, ?_, ?_, ?_, ?_, ?_⟩
        · rw [hc]; omega
        · rw [hi, hminK, hminK']
        · simp only [List.length_append, List.length_singleton]
          rw [hq]; omega
        · intro i hmem
          rcases List.mem_append.mp hmem with hmem | hmem
          · exact hqm i hmem
          · simp only [List.mem_singleton] at hmem
            rw [hmem, hn]; omega
        · rw [hn]
      · have hcond2 : ¬ (burst K D N).queue.length < (burst K D N).queueDepth := by
          rw [hq, hD]; omega
        rw [if_neg hcond2]
        dsimp only
        refine ⟨hK, hD, ?_, ?_, ?_, hqm, ?_⟩
        · rw [hc]; omega
        · rw [hi, hminK, hminK']
        · rw [hq]; omega
        · rw [hn]

/-- Settling a task never changes the list `invoked ++ queue`: the backfill
moves the queue head to the end of the invocation log and nothing else. -/
theorem settleTask_log (s : SchedulerState) (i : Nat) (o : Outcome) :
    (settleTask s i o).invoked ++ (settleTask s i o).queue = s.invoked ++ s.queue := by
  unfold settleTask
  split
  · split
    · rfl
    · rename_i hd tl hq
      dsimp only
      rw [hq, List.append_assoc]
      rfl
  · rfl

/-- Discrimination of events: `true` exactly for settlement events. -/
def Event.isSettle : Event → Bool
  | .submit => false
  | .settle _ _ => true

theorem foldl_settles_log (es : List Event) (hes : ∀ e ∈ es, e.isSettle = true)
    (s : SchedulerState) :
    (es.foldl step s).invoked ++ (es.foldl step s).queue = s.invoked ++ s.queue := by
  induction es generalizing s with
  | nil => rfl
  | cons e es ih =>
    have he := hes e (List.mem_cons_self _ _)
    cases e with
    | submit => simp [Event.isSettle] at he
    | settle i o =>
      rw [List.foldl_cons,
          ih (fun e' he' => hes e' (List.mem_cons_of_mem _ he')) (step s (.settle i o))]
      exact settleTask_log s i o

theorem settleTask_handles (s : SchedulerState) (i : Nat) (o : Outcome)
    (hi : i ∈ s.running) :
    (settleTask s i o).settledHandles = (i, o) :: s.settledHandles := by
  unfold settleTask
  rw [if_pos hi]
  split <;> rfl

theorem settleTask_core_independent (s : SchedulerState) (i : Nat) (o o' : Outcome) :
    (settleTask s i o).runningCount = (settleTask s i o').runningCount ∧
    (settleTask s i o).running = (settleTask s i o').running ∧
    (settleTask s i o).queue = (settleTask s i o').queue ∧
    (settleTask s i o).invoked = (settleTask s i o').invoked ∧
    (settleTask s i o).dropped = (settleTask s i o').dropped ∧
    (settleTask s i o).nextId = (settleTask s i o').nextId := by
  unfold settleTask
  split
  · split <;> exact ⟨rfl, rfl, rfl, rfl, rfl, rfl⟩
  · exact ⟨rfl, rfl, rfl, rfl, rfl, rfl⟩

/-- C1: for every `concurrencyLimit K ≥ 1` and any `queueDepth D`, when
`N > K` tasks that never settle on their own are submitted to a fresh
Scheduler, exactly the first `K` of them are invoked (invocation happens
inside `schedule` itself, i.e. synchronously during the submit calls) and
the remaining `N - K` submissions (ids `K … N-1`) are not invoked. -/
theorem C1_burst_invokes_exactly_limit (K D N : Nat) (_hK : 1 ≤ K) (hN : K < N) :
    (burst K D N).invoked = List.range K ∧ (burst K D N).nextId = N := by
  obtain ⟨-, -, -, hi, -, -, hn⟩ := burst_char K D N
  have hmin : min N K = K := by omega
  rw [hmin] at hi
  exact ⟨hi, hn⟩

/-- Witness for C1 at `K = 2, D = 1, N = 5`. -/
theorem C1_burst_invokes_exactly_limit_witness :
    1 ≤ 2 ∧ 2 < 5 ∧
    ((burst 2 1 5).invoked = List.range 2 ∧ (burst 2 1 5).nextId = 5) :=
  ⟨by decide, by decide, C1_burst_invokes_exactly_limit 2 1 5 (by decide) (by decide)⟩

/-- C2 (counterexample): the claim "tasks ever invoked = tasks submitted,
nothing dropped, no submission rejected for a full queue" is false on the
behaviour pinned by the shipped test: `Scheduler(2, 1)` with four
submissions (the test's scenario) invokes only 3 of the 4 submitted tasks,
even after every running task has settled; submission 3 arrived while 2
tasks ran and 1 was queued and was discarded. -/
theorem C2_counterexample_dropped_submission :
    (run 2 1 [.submit, .submit, .submit, .submit,
              .settle 0 (.ok "hi mom0"), .settle 1 (.ok "hi mom1"),
              .settle 2 (.ok "hi mom1")]).invoked.length = 3 ∧
    (run 2 1 [.submit, .submit, .submit, .submit,
              .settle 0 (.ok "hi mom0"), .settle 1 (.ok "hi mom1"),
              .settle 2 (.ok "hi mom1")]).nextId = 4 ∧
    (run 2 1 [.submit, .submit, .submit, .submit,
              .settle 0 (.ok "hi mom0"), .settle 1 (.ok "hi mom1"),
              .settle 2 (.ok "hi mom1")]).dropped = [3] ∧
    (3 : Nat) ≠ 4 := by decide

/-- C2 (amended): over the whole lifetime of a Scheduler, every submission
is accounted for exactly once — invoked, still queued, or silently
discarded by admission control when it arrived while `runningCount`
equalled `concurrencyLimit` and the queue already held `queueDepth` tasks —
and no task is ever invoked twice. -/
theorem C2_no_loss_accounting (K D : Nat) (es : List Event) :
    (run K D es).invoked.length + (run K D es).queue.length
        + (run K D es).dropped.length = (run K D es).nextId ∧
    (run K D es).invoked.Nodup := by
  obtain ⟨-, -, -, h4, -, -, -, -, h9⟩ := inv_run K D es
  exact ⟨h9, List.Pairwise.imp (fun h => Nat.ne_of_lt h) (List.pairwise_append.mp h4).1⟩

/-- C3 (Scenario A, the shipped test): `Scheduler(2, 1)`, four submissions
whose settlement is externally controlled. After the submissions exactly 2
tasks have been invoked (2 resolvers captured); settling task 0 admits the
3rd task (3 resolvers); settling task 1 leaves the total at 3; settling
task 2 leaves the total at 3. The settled values are those of the test
(`sentinel + 0`, `sentinel + 1`, `sentinel + 1`). -/
theorem C3_scenario_a :
    (run 2 1 [.submit, .submit, .submit, .submit]).invoked.length = 2 ∧
    (run 2 1 [.submit, .submit, .submit, .submit,
              .settle 0 (.ok "hi mom0")]).invoked.length = 3 ∧
    (run 2 1 [.submit, .submit, .submit, .submit,
              .settle 0 (.ok "hi mom0"), .settle 1 (.ok "hi mom1")]).invoked.length = 3 ∧
    (run 2 1 [.submit, .submit, .submit, .submit,
              .settle 0 (.ok "hi mom0"), .settle 1 (.ok "hi mom1"),
              .settle 2 (.ok "hi mom1")]).invoked.length = 3 := by decide

/-- C4: in any reachable state, when a running task settles while the queue
is non-empty, exactly the queue's head transitions to running: it is
invoked, the queue shrinks by one, and `runningCount` is unchanged — equal
to `min concurrencyLimit (uncompleted)` where uncompleted counts the tasks
admitted but not yet completed (running or queued) after the settlement. -/
theorem C4_backfill_from_queue_head (K D : Nat) (es : List Event)
    (i hd : Nat) (tl : List Nat) (o : Outcome)
    (hrun : i ∈ (run K D es).running) (hq : (run K D es).queue = hd :: tl) :
    (settleTask (run K D es) i o).invoked = (run K D es).invoked ++ [hd] ∧
    (settleTask (run K D es) i o).queue = tl ∧
    (settleTask (run K D es) i o).runningCount = (run K D es).runningCount ∧
    (settleTask (run K D es) i o).runningCount =
      min (run K D es).concurrencyLimit
        ((settleTask (run K D es) i o).running.length
          + (settleTask (run K D es) i o).queue.length) := by
  obtain ⟨h1, h2, h3, -, -, -, -, -, -⟩ := inv_run K D es
  have hpos : 1 ≤ (run K D es).running.length :=
    List.length_pos.mpr (List.ne_nil_of_mem hrun)
  have herase : ((run K D es).running.erase i).length = (run K D es).running.length - 1 :=
    List.length_erase_of_mem hrun
  have hK' : (run K D es).runningCount = (run K D es).concurrencyLimit :=
    h3 (by rw [hq]; simp)
  unfold settleTask
  rw [if_pos hrun, hq]
  dsimp only
  refine ⟨rfl, rfl, ?_, ?_⟩
  · omega
  · simp only [List.length_append, List.length_singleton, herase]
    omega

/-- Witness for C4: `Scheduler(2, 1)` after three submissions has task 0
running and task 2 queued; settling task 0 backfills task 2. -/
theorem C4_backfill_from_queue_head_witness :
    0 ∈ (run 2 1 [.submit, .submit, .submit]).running ∧
    (run 2 1 [.submit, .submit, .submit]).queue = 2 :: [] ∧
    ((settleTask (run 2 1 [.submit, .submit, .submit]) 0 (.ok "hi mom")).invoked
        = (run 2 1 [.submit, .submit, .submit]).invoked ++ [2] ∧
      (settleTask (run 2 1 [.submit, .submit, .submit]) 0 (.ok "hi mom")).queue = [] ∧
      (settleTask (run 2 1 [.submit, .submit, .submit]) 0 (.ok "hi mom")).runningCount
        = (run 2 1 [.submit, .submit, .submit]).runningCount ∧
      (settleTask (run 2 1 [.submit, .submit, .submit]) 0 (.ok "hi mom")).runningCount
        = min (run 2 1 [.submit, .submit, .submit]).concurrencyLimit
            ((settleTask (run 2 1 [.submit, .submit, .submit]) 0 (.ok "hi mom")).running.length
              + (settleTask (run 2 1 [.submit, .submit, .submit]) 0 (.ok "hi mom")).queue.length)) :=
  ⟨by decide, by decide,
    C4_backfill_from_queue_head 2 1 [.submit, .submit, .submit] 0 2 [] (.ok "hi mom")
      (by decide) (by decide)⟩

/-- C5: queued admission is strict FIFO. In every reachable state the
invocation log is strictly increasing in submission order and every task
still queued was submitted later than every task already invoked: tasks are
admitted in exact submission order as slots free, and no queued task is
ever skipped over by a later-submitted task — independently of the order in
which running tasks settle, since this holds over every event sequence. -/
theorem C5_fifo_admission (K D : Nat) (es : List Event) :
    List.Pairwise (· < ·) ((run K D es).invoked ++ (run K D es).queue) := by
  obtain ⟨-, -, -, h4, -, -, -, -, -⟩ := inv_run K D es
  exact h4

/-- C6 (Scenario B, the shipped test): `Scheduler(2, 1)` (the test file
constructs every scheduler with `concurrency = 2`), one submitted task whose
asynchronous result resolves to `"hi mom"`: the submission returns Handle 0
synchronously, and awaiting that Handle after the task settles yields
`"hi mom"`. -/
theorem C6_scenario_b :
    (schedule (Scheduler.init 2 1)).2 = 0 ∧
    await (run 2 1 [.submit, .settle 0 (.ok "hi mom")]) 0
      = some (Outcome.ok "hi mom") := by decide

/-- C7: `schedule` is a total function that, in every state — task admitted
immediately, queued, or discarded — returns the fresh Handle (the submitted
task's id) synchronously, and settles no Handle in doing so: it never waits
for any task to settle. -/
theorem C7_submit_returns_handle (s : SchedulerState) :
    (schedule s).2 = s.nextId ∧
    (schedule s).1.nextId = s.nextId + 1 ∧
    (schedule s).1.settledHandles = s.settledHandles := by
  unfold schedule
  split
  · exact ⟨rfl, rfl, rfl⟩
  · split
    · exact ⟨rfl, rfl, rfl⟩
    · exact ⟨rfl, rfl, rfl⟩

/-- C8: a failing task settles only its own Handle, as a failure; every
other Handle is untouched; the scheduler bookkeeping (counts, queue,
running set, invocation log, drops) is exactly what a successful settlement
would have produced, the state still satisfies the scheduler invariant, and
`settleTask` is total — the failure never escapes the Scheduler. -/
theorem C8_failure_isolation (s : SchedulerState) (i : Nat) (e v : String)
    (hs : Inv s) (hi : i ∈ s.running) :
    await (settleTask s i (.failure e)) i = some (Outcome.failure e) ∧
    (∀ j, j ≠ i → await (settleTask s i (.failure e)) j = await s j) ∧
    (settleTask s i (.failure e)).runningCount = (settleTask s i (.ok v)).runningCount ∧
    (settleTask s i (.failure e)).running = (settleTask s i (.ok v)).running ∧
    (settleTask s i (.failure e)).queue = (settleTask s i (.ok v)).queue ∧
    (settleTask s i (.failure e)).invoked = (settleTask s i (.ok v)).invoked ∧
    (settleTask s i (.failure e)).dropped = (settleTask s i (.ok v)).dropped ∧
    (settleTask s i (.failure e)).nextId = (settleTask s i (.ok v)).nextId ∧
    Inv (settleTask s i (.failure e)) := by
  obtain ⟨hc1, hc2, hc3, hc4, hc5, hc6⟩ := settleTask_core_independent s i (.failure e) (.ok v)
  refine ⟨?_, ?_, hc1, hc2, hc3, hc4, hc5, hc6, inv_settleTask s hs i (.failure e)⟩
  · rw [await, settleTask_handles s i (.failure e) hi]
    simp [List.lookup]
  · intro j hj
    have hb : (j == i) = false := by simpa using hj
    rw [await, await, settleTask_handles s i (.failure e) hi]
    simp [List.lookup, hb]

/-- Witness for C8: `Scheduler(2, 1)` with three submissions; task 0 fails
with `"boom"`. -/
theorem C8_failure_isolation_witness :
    Inv (run 2 1 [.submit, .submit, .submit]) ∧
    0 ∈ (run 2 1 [.submit, .submit, .submit]).running ∧
    (await (settleTask (run 2 1 [.submit, .submit, .submit]) 0 (.failure "boom")) 0
        = some (Outcome.failure "boom") ∧
      (∀ j, j ≠ 0 → await (settleTask (run 2 1 [.submit, .submit, .submit]) 0 (.failure "boom")) j
        = await (run 2 1 [.submit, .submit, .submit]) j) ∧
      (settleTask (run 2 1 [.submit, .submit, .submit]) 0 (.failure "boom")).runningCount
        = (settleTask (run 2 1 [.submit, .submit, .submit]) 0 (.ok "hi mom")).runningCount ∧
      (settleTask (run 2 1 [.submit, .submit, .submit]) 0 (.failure "boom")).running
        = (settleTask (run 2 1 [.submit, .submit, .submit]) 0 (.ok "hi mom")).running ∧
      (settleTask (run 2 1 [.submit, .submit, .submit]) 0 (.failure "boom")).queue
        = (settleTask (run 2 1 [.submit, .submit, .submit]) 0 (.ok "hi mom")).queue ∧
      (settleTask (run 2 1 [.submit, .submit, .submit]) 0 (.failure "boom")).invoked
        = (settleTask (run 2 1 [.submit, .submit, .submit]) 0 (.ok "hi mom")).invoked ∧
      (settleTask (run 2 1 [.submit, .submit, .submit]) 0 (.failure "boom")).dropped
        = (settleTask (run 2 1 [.submit, .submit, .submit]) 0 (.ok "hi mom")).dropped ∧
      (settleTask (run 2 1 [.submit, .submit, .submit]) 0 (.failure "boom")).nextId
        = (settleTask (run 2 1 [.submit, .submit, .submit]) 0 (.ok "hi mom")).nextId ∧
      Inv (settleTask (run 2 1 [.submit, .submit, .submit]) 0 (.failure "boom"))) :=
  ⟨by decide, by decide,
    C8_failure_isolation (run 2 1 [.submit, .submit, .submit]) 0 "boom" "hi mom"
      (by decide) (by decide)⟩

/-- C9: constructing a Scheduler with `concurrencyLimit < 1` fails fast at
construction with a `ConfigurationError`, before any task is submitted. -/
theorem C9_configuration_error (K D : Nat) (hK : K < 1) :
    Scheduler.make K D = Except.error ConfigurationError.invalidConcurrencyLimit := by
  unfold Scheduler.make
  rw [if_pos hK]

/-- Witness for C9 at `K = 0, D = 7`. -/
theorem C9_configuration_error_witness :
    0 < 1 ∧
    Scheduler.make 0 7 = Except.error ConfigurationError.invalidConcurrencyLimit :=
  ⟨by decide, C9_configuration_error 0 7 (by decide)⟩

/-- C10 (implicit): with `concurrencyLimit K` and `queueDepth D`, a burst of
`N` submissions followed by any sequence of settlements invokes at most
`K + D` tasks over the whole lifetime, and only tasks with submission index
below `K + D` are ever invoked: a submission arriving while `K` tasks run
and `D` are queued (index `≥ K + D`) is silently discarded and never
invoked, even after slots free up. -/
theorem C10_overflow_discard (K D N : Nat) (es : List Event)
    (hes : ∀ e ∈ es, e.isSettle = true) :
    (run K D (List.replicate N Event.submit ++ es)).invoked.length ≤ K + D ∧
    ∀ i ∈ (run K D (List.replicate N Event.submit ++ es)).invoked, i < K + D := by
  have hrun : run K D (List.replicate N Event.submit ++ es) = es.foldl step (burst K D N) := by
    unfold run burst run
    rw [List.foldl_append]
  obtain ⟨-, -, -, hi, hq, hqm, -⟩ := burst_char K D N
  have hlog := foldl_settles_log es hes (burst K D N)
  rw [hrun]
  constructor
  · have h1 : (es.foldl step (burst K D N)).invoked.length
        ≤ ((es.foldl step (burst K D N)).invoked
            ++ (es.foldl step (burst K D N)).queue).length := by
      simp only [List.length_append]
      exact Nat.le_add_right _ _
    rw [hlog] at h1
    simp only [List.length_append] at h1
    rw [hi] at h1
    simp only [List.length_range] at h1
    rw [hq] at h1
    omega
  · intro i hmem
    have hm2 : i ∈ (es.foldl step (burst K D N)).invoked
        ++ (es.foldl step (burst K D N)).queue := List.mem_append_left _ hmem
    rw [hlog] at hm2
    rcases List.mem_append.mp hm2 with h | h
    · rw [hi, List.mem_range] at h
      omega
    · exact hqm i h

/-- Witness for C10 at the test's parameters: `K = 2, D = 1, N = 4` and the
three settlements the test performs. -/
theorem C10_overflow_discard_witness :
    (∀ e ∈ [Event.settle 0 (.ok "hi mom0"), Event.settle 1 (.ok "hi mom1"),
            Event.settle 2 (.ok "hi mom1")], e.isSettle = true) ∧
    ((run 2 1 (List.replicate 4 Event.submit
        ++ [Event.settle 0 (.ok "hi mom0"), Event.settle 1 (.ok "hi mom1"),
            Event.settle 2 (.ok "hi mom1")])).invoked.length ≤ 2 + 1 ∧
      ∀ i ∈ (run 2 1 (List.replicate 4 Event.submit
        ++ [Event.settle 0 (.ok "hi mom0"), Event.settle 1 (.ok "hi mom1"),
            Event.settle 2 (.ok "hi mom1")])).invoked, i < 2 + 1) :=
  ⟨by decide,
    C10_overflow_discard 2 1 4
      [Event.settle 0 (.ok "hi mom0"), Event.settle 1 (.ok "hi mom1"),
       Event.settle 2 (.ok "hi mom1")] (by decide)⟩

end Plasticity
